import Mathlib

/-!
Shallow embedding of the `RemoteControl` control layer of the
Autonomous-Guitar firmware (RemoteControl.h / RemoteControl.cpp, with the
pieces of ServoControl.cpp that its debug output uses).

Modelling conventions:
* The serial input stream is a `List Nat` of the bytes currently available
  (`Serial.available()` is its length, `Serial.peek()` its head,
  `Serial.read()` removes the head).
* Everything the firmware writes back out (status lines over `Serial`,
  and each call of the actuator driver `setServoAngle`) is recorded as a
  list of `Event`s, in emission order.
* `millis()` is passed in as the parameter `now`; `unsigned long`
  arithmetic on the AVR target is 32-bit, so sums of times are reduced
  modulo `2 ^ 32` exactly where the C code adds them.
* `errorHandler` never returns in the C code (an infinite reporting
  loop).  Following the terminal-state reading of that loop, the state
  carries an absorbing `halted` flag: entering `errorHandler` sets it and
  ends the pass, and a `handle` invocation on a halted state only re-emits
  the error line and does nothing else.
-/

namespace AutonomousGuitar

/-- Markers and packet sizes from RemoteControl.cpp. -/
def SYNC_MARKER : Nat := 0xAA

def SYNC_TYPE : Nat := 0x01

def SYNC_PACKET_SIZE : Nat := 6

def COMMAND_MARKER : Nat := 0xBB

def COMMAND_PACKET_SIZE : Nat := 7

def GET_TIME_MARKER : Nat := 0xCC

def GET_TIME_PACKET_SIZE : Nat := 1

def END_MARKER : Nat := 0xDD

def END_PACKET_SIZE : Nat := 5

def STOP_MARKER : Nat := 0xEE

def RESET_MARKER : Nat := 0xEF

def MAX_RESET_SERVOS : Nat := 18

/-- RemoteControl.h: maximum number of buffered commands. -/
def MAX_COMMANDS : Nat := 1

/-- Modulus of the 32-bit `unsigned long` arithmetic of the AVR target. -/
def UINT32_MOD : Nat := 2 ^ 32

/-- ServoControl.h configuration constants. -/
def MAX_SERVO_ANGLE : Nat := 180

def PWM_MIN_MICROSEC : Nat := 400

def PWM_MAX_MICROSEC : Nat := 2600

def PWM_FREQUENCY : Nat := 60

/-- ServoControl.cpp: `servomin`, computed in `setupServoDrivers` via the
Arduino `map` function (integer division throughout, all values
non-negative). -/
def servomin : Nat := PWM_MIN_MICROSEC * 4096 / (1000000 / PWM_FREQUENCY)

/-- ServoControl.cpp: `servomax`. -/
def servomax : Nat := PWM_MAX_MICROSEC * 4096 / (1000000 / PWM_FREQUENCY)

/-- ServoControl.cpp: `angleToPulse` — clamp the angle to
`0 .. MAX_SERVO_ANGLE` and map it linearly onto `servomin .. servomax`.
The argument is the `uint8_t` angle byte, so the `angle < 0` clamp of the
C source is vacuous here. -/
def angleToPulse (angle : Nat) : Nat :=
  let a := if angle > MAX_SERVO_ANGLE then MAX_SERVO_ANGLE else angle
  a * (servomax - servomin) / (MAX_SERVO_ANGLE - 0) + servomin

/-- RemoteControl.h: one buffered PICK (or end-of-song sentinel) command. -/
structure Command where
  targetIndex : Nat
  angle : Nat
  relativeDelay : Nat
deriving Repr, DecidableEq

/-- The mutable state of a `RemoteControl` object.  `commandCount` of the
C code is `commandBuffer.length` here; the C array plus count, only ever
appended to below `MAX_COMMANDS`, is a list of length at most
`MAX_COMMANDS`. -/
structure RCState where
  commandBuffer : List Command
  syncReceived : Bool
  syncStartTime : Nat
  debugEnabled : Bool
  halted : Bool
deriving Repr, DecidableEq

/-- Observable effects of the firmware: a status line printed over serial,
a debug line (only when `debugEnabled`), or an invocation of the actuator
driver `setServoAngle idx angle`. -/
inductive Event where
  | msg (s : String)
  | debugMsg (s : String)
  | servo (idx : Nat) (angle : Int)
deriving Repr, DecidableEq

/-- Little-endian 32-bit decode, as in the PICK and END branches:
`d0 | (d1 << 8) | (d2 << 16) | (d3 << 24)`. -/
def decodeLE32 (d0 d1 d2 d3 : Nat) : Nat :=
  d0 ||| (d1 <<< 8) ||| (d2 <<< 16) ||| (d3 <<< 24)

/-- Big-endian 32-bit decode, as in the SYNC branch:
`(b0 << 24) | (b1 << 16) | (b2 << 8) | b3`. -/
def decodeBE32 (b0 b1 b2 b3 : Nat) : Nat :=
  (b0 <<< 24) ||| (b1 <<< 16) ||| (b2 <<< 8) ||| b3

/-- The `(int16_t)` cast of the C code: reduce to 16 bits and reinterpret
the top bit as the sign. -/
def toInt16 (v : Nat) : Int :=
  if v % 65536 < 32768 then ((v % 65536 : Nat) : Int)
  else ((v % 65536 : Nat) : Int) - 65536

/-- The RESET branch loop: for `count` servo indices starting at `idx`,
read two bytes, decode `(int16_t)((hi << 8) | lo)` and call
`setServoAngle idx angle`.  The caller guarantees enough bytes, so the
fall-through cases are unreachable there. -/
def resetLoop (idx count : Nat) (bytes : List Nat) : List Event :=
  match count, bytes with
  | 0, _ => []
  | c + 1, hi :: lo :: rest =>
      Event.servo idx (toInt16 ((hi <<< 8) ||| lo)) :: resetLoop (idx + 1) c rest
  | _ + 1, _ => []

/-- Result of one iteration of the `while (Serial.available() > 0)` loop
of `parseSerialData`: either the loop continues (`next`, after a `continue`
that consumed a whole packet) or the pass ends (`done`, on `break`, on the
`return` inside the SYNC branch, or when no byte is available). -/
inductive StepResult where
  | next (st : RCState) (rest : List Nat) (evs : List Event)
  | done (st : RCState) (rest : List Nat) (evs : List Event)
deriving Repr, DecidableEq

/-- One iteration of the dispatch loop of `RemoteControl::parseSerialData`,
mirroring the branch order of the C code: STOP, RESET, PICK, END,
GET_TIME, SYNC, otherwise `break`.  The `avail >= 1` half of the STOP
condition of the C code holds whenever the loop body runs, so it is
dropped here (`avail` is `rest.length + 1`); in the C chain a marker whose
size guard fails falls through
every other branch (all markers are distinct) and reaches `break`, which
is rendered as the nested else returning `done` on the untouched input. -/
def parseStep (st : RCState) (input : List Nat) (now : Nat) : StepResult :=
  match input with
  | [] => .done st [] []
  | marker :: rest =>
    if marker = STOP_MARKER then
      .next { st with commandBuffer := [], syncReceived := false } rest
        [Event.msg "STOPPED"]
    else if marker = RESET_MARKER then
      if 1 + MAX_RESET_SERVOS * 2 ≤ rest.length + 1 then
        .next st (rest.drop (MAX_RESET_SERVOS * 2))
          (resetLoop 0 MAX_RESET_SERVOS rest ++
            (if st.debugEnabled then
              [Event.debugMsg "RemoteControl: Servos RESET to dynamic angles."]
             else []) ++
            [Event.msg "RESET_DONE"])
      else .done st (marker :: rest) []
    else if marker = COMMAND_MARKER then
      match rest with
      | t :: a :: d0 :: d1 :: d2 :: d3 :: rest2 =>
        let cmd : Command := ⟨t, a, decodeLE32 d0 d1 d2 d3⟩
        if st.commandBuffer.length < MAX_COMMANDS then
          .next { st with commandBuffer := st.commandBuffer ++ [cmd] } rest2
            (if st.debugEnabled then
              [Event.debugMsg ("RemoteControl: Buffered PICK T=" ++ toString t ++
                " A=" ++ toString a ++ " D=" ++
                toString (decodeLE32 d0 d1 d2 d3) ++ "ms")]
             else [])
        else
          .next st rest2 [Event.msg "ERROR: command buffer full"]
      | _ => .done st (marker :: rest) []
    else if marker = END_MARKER then
      match rest with
      | d0 :: d1 :: d2 :: d3 :: rest2 =>
        let rel := decodeLE32 d0 d1 d2 d3
        if st.commandBuffer.length < MAX_COMMANDS then
          .next { st with commandBuffer := st.commandBuffer ++ [⟨255, 0, rel⟩] }
            rest2 []
        else
          .next st rest2 []
      | _ => .done st (marker :: rest) []
    else if marker = GET_TIME_MARKER then
      .next st rest [Event.msg ("TIME:" ++ toString now)]
    else if marker = SYNC_MARKER then
      match rest with
      | ty :: b0 :: b1 :: b2 :: b3 :: rest2 =>
        if ty ≠ SYNC_TYPE then
          .done { st with halted := true } (b0 :: b1 :: b2 :: b3 :: rest2)
            [Event.msg "RemoteControl ERROR: Unexpected sync packet type"]
        else
          let t := decodeBE32 b0 b1 b2 b3
          .next { st with
                    commandBuffer := [],
                    syncReceived := true,
                    syncStartTime := t } rest2
            (if st.debugEnabled then
              [Event.debugMsg ("RemoteControl: Sync at " ++ toString t)]
             else [])
      | _ => .done st (marker :: rest) []
    else
      .done st (marker :: rest) []

/-- Fuel-driven iteration of `parseStep`.  Every `next` step consumes at
least one byte, so fuel `input.length` always suffices: when fuel runs
out the input is already empty and the extra base case coincides with
`parseStep` on `[]`. -/
def parseGo : Nat → RCState → List Nat → Nat → RCState × List Nat × List Event
  | 0, st, input, _ => (st, input, [])
  | fuel + 1, st, input, now =>
    match parseStep st input now with
    | .done st2 rest evs => (st2, rest, evs)
    | .next st2 rest evs =>
      let r := parseGo fuel st2 rest now
      (r.1, r.2.1, evs ++ r.2.2)

/-- `RemoteControl::parseSerialData`: run the dispatch loop until it
breaks, returning the final state, the unconsumed bytes, and the emitted
events. -/
def parseSerialData (st : RCState) (input : List Nat) (now : Nat) :
    RCState × List Nat × List Event :=
  parseGo input.length st input now

/-- The scan loop of `RemoteControl::update`, with the in-place left shift
of the C array rendered as list removal: an entry whose `execTime` has
been reached is executed (sentinel 255 prints DONE and clears the sync
flag; anything else calls the driver) and removed, and scanning continues
at the same position; an entry not yet due is kept and scanning moves on.
The loop itself never re-tests the sync flag. -/
def updateLoop (baseline now : Nat) (debug : Bool) :
    List Command → Bool → List Command × Bool × List Event
  | [], sync => ([], sync, [])
  | c :: buf, sync =>
    let execTime := (baseline + c.relativeDelay) % UINT32_MOD
    if execTime ≤ now then
      if c.targetIndex = 255 then
        let r := updateLoop baseline now debug buf false
        (r.1, r.2.1, Event.msg "DONE" :: r.2.2)
      else
        let r := updateLoop baseline now debug buf sync
        (r.1, r.2.1,
          (if debug then
            [Event.debugMsg ("Executing PICK: index=" ++ toString c.targetIndex ++
              " angle=" ++ toString c.angle ++ " pulse=" ++
              toString (angleToPulse c.angle))]
           else []) ++
          Event.servo c.targetIndex (c.angle : Int) :: r.2.2)
    else
      let r := updateLoop baseline now debug buf sync
      (c :: r.1, r.2.1, r.2.2)

/-- `RemoteControl::update`: skip everything unless a sync has been
received, otherwise scan the buffer once. -/
def update (st : RCState) (now : Nat) : RCState × List Event :=
  if st.syncReceived then
    let r := updateLoop st.syncStartTime now st.debugEnabled st.commandBuffer true
    ({ st with commandBuffer := r.1, syncReceived := r.2.1 }, r.2.2)
  else (st, [])

/-- `RemoteControl::handle`: parse, then execute due commands.  A halted
state (inside `errorHandler`) only re-emits the error line; reaching the
halted state during the parse pass skips `update`, since `errorHandler`
never returns. -/
def handle (st : RCState) (input : List Nat) (now : Nat) :
    RCState × List Nat × List Event :=
  if st.halted then
    (st, input, [Event.msg "RemoteControl ERROR: Unexpected sync packet type"])
  else
    let p := parseSerialData st input now
    if p.1.halted then
      (p.1, p.2.1, p.2.2)
    else
      let u := update p.1 now
      (u.1, p.2.1, p.2.2 ++ u.2)

/-- The state carried by either constructor of a `StepResult`. -/
def StepResult.state : StepResult → RCState
  | .next st _ _ => st
  | .done st _ _ => st

/-- The full packet size the dispatcher requires for each known marker,
exactly the size guards of `parseSerialData`; `none` for an unknown
marker. -/
def knownPacketSize (m : Nat) : Option Nat :=
  if m = STOP_MARKER then some 1
  else if m = RESET_MARKER then some (1 + MAX_RESET_SERVOS * 2)
  else if m = COMMAND_MARKER then some COMMAND_PACKET_SIZE
  else if m = END_MARKER then some END_PACKET_SIZE
  else if m = GET_TIME_MARKER then some GET_TIME_PACKET_SIZE
  else if m = SYNC_MARKER then some SYNC_PACKET_SIZE
  else none

lemma lor_eq_add_of_lt (c b i : Nat) (hb : b < 2 ^ i) :
    (2 ^ i * c) ||| b = 2 ^ i * c + b :=
  (Nat.mul_add_lt_is_or hb c).symm

lemma decodeLE32_eq (d0 d1 d2 d3 : Nat) (h0 : d0 < 256) (h1 : d1 < 256)
    (h2 : d2 < 256) :
    decodeLE32 d0 d1 d2 d3 = d0 + d1 * 256 + d2 * 65536 + d3 * 16777216 := by
  have e1 : d0 ||| (d1 <<< 8) = d1 * 256 + d0 := by
    rw [Nat.shiftLeft_eq, Nat.lor_comm, show d1 * 2 ^ 8 = 2 ^ 8 * d1 by ring,
      lor_eq_add_of_lt d1 d0 8 (by omega)]
    ring
  have e2 : (d0 ||| (d1 <<< 8)) ||| (d2 <<< 16) = d2 * 65536 + (d1 * 256 + d0) := by
    rw [e1, Nat.shiftLeft_eq, Nat.lor_comm, show d2 * 2 ^ 16 = 2 ^ 16 * d2 by ring,
      lor_eq_add_of_lt d2 (d1 * 256 + d0) 16 (by omega)]
    ring
  unfold decodeLE32
  rw [e2, Nat.shiftLeft_eq, Nat.lor_comm, show d3 * 2 ^ 24 = 2 ^ 24 * d3 by ring,
    lor_eq_add_of_lt d3 (d2 * 65536 + (d1 * 256 + d0)) 24 (by omega)]
  ring

lemma decodeBE32_eq (b0 b1 b2 b3 : Nat) (h1 : b1 < 256) (h2 : b2 < 256)
    (h3 : b3 < 256) :
    decodeBE32 b0 b1 b2 b3 = b0 * 16777216 + b1 * 65536 + b2 * 256 + b3 := by
  have e1 : (b0 <<< 24) ||| (b1 <<< 16) = 2 ^ 16 * (b0 * 256 + b1) := by
    rw [Nat.shiftLeft_eq, Nat.shiftLeft_eq, show b0 * 2 ^ 24 = 2 ^ 24 * b0 by ring,
      lor_eq_add_of_lt b0 (b1 * 2 ^ 16) 24 (by omega)]
    ring
  have e2 : ((b0 <<< 24) ||| (b1 <<< 16)) ||| (b2 <<< 8) =
      2 ^ 8 * (b0 * 65536 + b1 * 256 + b2) := by
    rw [e1, Nat.shiftLeft_eq, show (2 : Nat) ^ 16 * (b0 * 256 + b1) =
      2 ^ 16 * (b0 * 256 + b1) by ring,
      lor_eq_add_of_lt (b0 * 256 + b1) (b2 * 2 ^ 8) 16 (by omega)]
    ring
  unfold decodeBE32
  rw [e2, lor_eq_add_of_lt (b0 * 65536 + b1 * 256 + b2) b3 8 (by omega)]
  ring

lemma lor_shift8_eq (hi lo : Nat) (hlo : lo < 256) :
    (hi <<< 8) ||| lo = hi * 256 + lo := by
  rw [Nat.shiftLeft_eq, show hi * 2 ^ 8 = 2 ^ 8 * hi by ring,
    lor_eq_add_of_lt hi lo 8 (by omega)]
  ring

/-- Claim C6: processing a STOP packet always empties the command buffer,
deactivates scheduling, and emits the STOPPED status line, for every prior
state (in particular regardless of sync state) and every continuation of
the stream; the branch is taken first, before any other interpretation of
the leading byte. -/
theorem stop_packet_effect (st : RCState) (rest : List Nat) (now : Nat) :
    parseStep st (STOP_MARKER :: rest) now =
      .next { st with commandBuffer := [], syncReceived := false } rest
        [Event.msg "STOPPED"] := by
  simp [parseStep]

/-- Claim C3: running the dispatcher on a fully framed SYNC packet with
the expected type byte leaves the command buffer empty, activates
scheduling, and sets the baseline to the big-endian decode of the four
timestamp bytes, for every prior state; no actuator call is emitted, so
commands buffered under a previous baseline are discarded unexecuted. -/
theorem sync_packet_resets (st : RCState) (b0 b1 b2 b3 : Nat) (now : Nat) :
    ((parseSerialData st [SYNC_MARKER, SYNC_TYPE, b0, b1, b2, b3] now).1.commandBuffer
        = [] ∧
      (parseSerialData st [SYNC_MARKER, SYNC_TYPE, b0, b1, b2, b3] now).1.syncReceived
        = true ∧
      (parseSerialData st [SYNC_MARKER, SYNC_TYPE, b0, b1, b2, b3] now).1.syncStartTime
        = decodeBE32 b0 b1 b2 b3 ∧
      (parseSerialData st [SYNC_MARKER, SYNC_TYPE, b0, b1, b2, b3] now).2.1 = []) ∧
    ∀ i a, Event.servo i a ∉
      (parseSerialData st [SYNC_MARKER, SYNC_TYPE, b0, b1, b2, b3] now).2.2 := by
  by_cases hdbg : st.debugEnabled = true <;>
    simp [parseSerialData, parseGo, parseStep, hdbg, SYNC_MARKER, SYNC_TYPE,
      STOP_MARKER, RESET_MARKER, COMMAND_MARKER, END_MARKER, GET_TIME_MARKER,
      MAX_RESET_SERVOS]

lemma parseStep_full_buffer (st : RCState) (t a d0 d1 d2 d3 : Nat)
    (rest : List Nat) (now : Nat)
    (hfull : ¬ st.commandBuffer.length < MAX_COMMANDS) :
    parseStep st (COMMAND_MARKER :: t :: a :: d0 :: d1 :: d2 :: d3 :: rest) now =
      .next st rest [Event.msg "ERROR: command buffer full"] ∧
    parseStep st (END_MARKER :: d0 :: d1 :: d2 :: d3 :: rest) now =
      .next st rest [] := by
  constructor <;> simp [parseStep, hfull, STOP_MARKER, RESET_MARKER,
    COMMAND_MARKER, END_MARKER, GET_TIME_MARKER, SYNC_MARKER, MAX_RESET_SERVOS]

/-- Claim C2 counterexample: an END packet framed while the command buffer
is full is dropped silently — the event list is empty, so no error status
line is emitted, contradicting the claim that every such END packet
produces an error status. -/
theorem end_buffer_full_silent_drop :
    parseStep ⟨[⟨3, 90, 500⟩], true, 1000, false, false⟩
      [END_MARKER, 0, 0, 0, 0] 0 =
      .next ⟨[⟨3, 90, 500⟩], true, 1000, false, false⟩ [] [] := by
  decide

/-- Claim C2 (amended): a PICK packet framed while the buffer is full is
discarded with the buffer-full error line, the buffer unchanged, and the
pass continuing; an END packet framed while the buffer is full is likewise
discarded with the buffer unchanged and the pass continuing, but silently,
with no status line. -/
theorem buffer_full_drop (st : RCState) (t a d0 d1 d2 d3 : Nat)
    (rest : List Nat) (now : Nat)
    (hfull : ¬ st.commandBuffer.length < MAX_COMMANDS) :
    parseStep st (COMMAND_MARKER :: t :: a :: d0 :: d1 :: d2 :: d3 :: rest) now =
      .next st rest [Event.msg "ERROR: command buffer full"] ∧
    parseStep st (END_MARKER :: d0 :: d1 :: d2 :: d3 :: rest) now =
      .next st rest [] :=
  parseStep_full_buffer st t a d0 d1 d2 d3 rest now hfull

/-- Witness for `buffer_full_drop` at a concrete full state and packet. -/
theorem buffer_full_drop_witness :
    parseStep ⟨[⟨3, 90, 500⟩], true, 1000, false, false⟩
      [COMMAND_MARKER, 4, 5, 1, 0, 0, 0] 0 =
      .next ⟨[⟨3, 90, 500⟩], true, 1000, false, false⟩ []
        [Event.msg "ERROR: command buffer full"] :=
  (buffer_full_drop ⟨[⟨3, 90, 500⟩], true, 1000, false, false⟩
    4 5 1 0 0 0 [] 0 (by decide)).1

/-- Claim C9: the wire format is decoded with the fixed asymmetric byte
orders — the 4-byte delay of PICK and END packets is little-endian (first
byte least significant), the 4-byte SYNC timestamp is big-endian (first
byte most significant), and each 2-byte RESET angle is big-endian with the
16-bit two-complement sign reading. -/
theorem wire_format_endianness (st : RCState) (t a d0 d1 d2 d3 b0 b1 b2 b3 hi lo : Nat)
    (rest : List Nat) (now : Nat) (idx : Nat)
    (h0 : d0 < 256) (h1 : d1 < 256) (h2 : d2 < 256)
    (hb1 : b1 < 256) (hb2 : b2 < 256) (hb3 : b3 < 256) (hlo : lo < 256)
    (hbuf : st.commandBuffer = []) (hdbg : st.debugEnabled = false) :
    parseStep st (COMMAND_MARKER :: t :: a :: d0 :: d1 :: d2 :: d3 :: rest) now =
      .next { st with commandBuffer :=
          [⟨t, a, d0 + d1 * 256 + d2 * 65536 + d3 * 16777216⟩] } rest [] ∧
    parseStep st (END_MARKER :: d0 :: d1 :: d2 :: d3 :: rest) now =
      .next { st with commandBuffer :=
          [⟨255, 0, d0 + d1 * 256 + d2 * 65536 + d3 * 16777216⟩] } rest [] ∧
    parseStep st (SYNC_MARKER :: SYNC_TYPE :: b0 :: b1 :: b2 :: b3 :: rest) now =
      .next { st with commandBuffer := [], syncReceived := true, syncStartTime := b0 * 16777216 + b1 * 65536 + b2 * 256 + b3 } rest [] ∧
    resetLoop idx 1 [hi, lo] =
      [Event.servo idx (toInt16 (hi * 256 + lo))] ∧
    (hi * 256 + lo < 65536 →
      toInt16 (hi * 256 + lo) =
        if hi * 256 + lo < 32768 then ((hi * 256 + lo : Nat) : Int)
        else ((hi * 256 + lo : Nat) : Int) - 65536) := by
  refine ⟨?_, ?_, ?_, ?_, ?_⟩
  · simp [parseStep, hbuf, hdbg, MAX_COMMANDS, STOP_MARKER, RESET_MARKER,
      COMMAND_MARKER, END_MARKER, GET_TIME_MARKER, SYNC_MARKER,
      decodeLE32_eq d0 d1 d2 d3 h0 h1 h2]
  · simp [parseStep, hbuf, hdbg, MAX_COMMANDS, STOP_MARKER, RESET_MARKER,
      COMMAND_MARKER, END_MARKER, GET_TIME_MARKER, SYNC_MARKER,
      decodeLE32_eq d0 d1 d2 d3 h0 h1 h2]
  · simp [parseStep, hbuf, hdbg, STOP_MARKER, RESET_MARKER, COMMAND_MARKER,
      END_MARKER, GET_TIME_MARKER, SYNC_MARKER, SYNC_TYPE,
      decodeBE32_eq b0 b1 b2 b3 hb1 hb2 hb3]
  · simp [resetLoop, lor_shift8_eq hi lo hlo]
  · intro hlt
    simp [toInt16, Nat.mod_eq_of_lt hlt]

/-- Witness for `wire_format_endianness` at concrete bytes: delay bytes
244,1,0,0 decode little-endian to 500; timestamp bytes 0,0,3,232 decode
big-endian to 1000; angle bytes 255,56 decode big-endian signed to -200. -/
theorem wire_format_endianness_witness :
    parseStep ⟨[], false, 0, false, false⟩
      [COMMAND_MARKER, 3, 90, 244, 1, 0, 0] 0 =
      .next ⟨[⟨3, 90, 500⟩], false, 0, false, false⟩ [] [] ∧
    resetLoop 0 1 [255, 56] = [Event.servo 0 (toInt16 (255 * 256 + 56))] := by
  have h := wire_format_endianness ⟨[], false, 0, false, false⟩
    3 90 244 1 0 0 0 0 3 232 255 56 [] 0 0
    (by decide) (by decide) (by decide) (by decide) (by decide) (by decide)
    (by decide) (by decide) (by decide)
  exact ⟨h.1, h.2.2.2.1⟩

lemma resetLoop_spec (count : Nat) : ∀ (idx : Nat) (bytes : List Nat),
    bytes.length = 2 * count → (∀ b ∈ bytes, b < 256) →
    (resetLoop idx count bytes).length = count ∧
    ∀ i < count, (resetLoop idx count bytes).getD i (Event.msg "") =
      Event.servo (idx + i)
        (toInt16 (bytes.getD (2 * i) 0 * 256 + bytes.getD (2 * i + 1) 0)) := by
  induction count with
  | zero => intro idx bytes _ _; simp [resetLoop]
  | succ c ih =>
    intro idx bytes hlen hb
    match bytes with
    | [] => simp only [List.length_nil] at hlen; omega
    | [x] => simp only [List.length_cons, List.length_nil] at hlen; omega
    | hi :: lo :: tl =>
      have hhi : hi < 256 := hb hi (by simp)
      have hlo : lo < 256 := hb lo (by simp)
      have htl : tl.length = 2 * c := by
        simp only [List.length_cons] at hlen; omega
      have hbt : ∀ b ∈ tl, b < 256 := fun b hbm => hb b (by simp [hbm])
      obtain ⟨ihlen, ihget⟩ := ih (idx + 1) tl htl hbt
      constructor
      · simp [resetLoop, ihlen]
      · intro i hilt
        match i with
        | 0 => simp [resetLoop, lor_shift8_eq hi lo hlo]
        | j + 1 =>
          have hj := ihget j (by omega)
          have e2 : 2 * (j + 1) = 2 * j + 1 + 1 := by omega
          have e3 : 2 * (j + 1) + 1 = 2 * j + 1 + 1 + 1 := by omega
          have e4 : idx + (j + 1) = idx + 1 + j := by omega
          simp only [resetLoop, List.getD_cons_succ, e2, e3, e4]
          exact hj

lemma resetLoop_append (count : Nat) : ∀ (idx : Nat) (bytes tail : List Nat),
    bytes.length = 2 * count →
    resetLoop idx count (bytes ++ tail) = resetLoop idx count bytes := by
  induction count with
  | zero => intro idx bytes tail _; simp [resetLoop]
  | succ c ih =>
    intro idx bytes tail hlen
    match bytes with
    | [] => simp only [List.length_nil] at hlen; omega
    | [x] => simp only [List.length_cons, List.length_nil] at hlen; omega
    | hi :: lo :: tl =>
      have htl : tl.length = 2 * c := by
        simp only [List.length_cons] at hlen; omega
      simp [resetLoop, ih (idx + 1) tl tail htl]

/-- Claim C7: a fully framed RESET packet moves every one of the
`MAX_RESET_SERVOS` actuators immediately — the driver is invoked once per
index `0 .. MAX_RESET_SERVOS - 1`, in order, with the big-endian signed
16-bit decode of the corresponding byte pair — the state is untouched
(nothing buffered, sync state irrelevant), exactly the packet is consumed,
and the completion status line follows the driver calls. -/
theorem reset_packet_immediate (st : RCState) (bytes rest : List Nat) (now : Nat)
    (hlen : bytes.length = MAX_RESET_SERVOS * 2) (hbytes : ∀ b ∈ bytes, b < 256)
    (hdbg : st.debugEnabled = false) :
    parseStep st (RESET_MARKER :: (bytes ++ rest)) now =
      .next st rest
        (resetLoop 0 MAX_RESET_SERVOS bytes ++ [Event.msg "RESET_DONE"]) ∧
    (resetLoop 0 MAX_RESET_SERVOS bytes).length = MAX_RESET_SERVOS ∧
    ∀ i < MAX_RESET_SERVOS,
      (resetLoop 0 MAX_RESET_SERVOS bytes).getD i (Event.msg "") =
        Event.servo i
          (toInt16 (bytes.getD (2 * i) 0 * 256 + bytes.getD (2 * i + 1) 0)) := by
  have hlen2 : bytes.length = 2 * MAX_RESET_SERVOS := by rw [hlen]; ring
  obtain ⟨hl, hg⟩ := resetLoop_spec MAX_RESET_SERVOS 0 bytes hlen2 hbytes
  have hdrop : (bytes ++ rest).drop (MAX_RESET_SERVOS * 2) = rest :=
    List.drop_left' hlen
  have happ : resetLoop 0 MAX_RESET_SERVOS (bytes ++ rest) =
      resetLoop 0 MAX_RESET_SERVOS bytes :=
    resetLoop_append MAX_RESET_SERVOS 0 bytes rest hlen2
  have hguard : 1 + MAX_RESET_SERVOS * 2 ≤ bytes.length + rest.length + 1 := by
    omega
  refine ⟨?_, hl, ?_⟩
  · simp [parseStep, hdbg, hdrop, happ, hguard, List.length_append,
      STOP_MARKER, RESET_MARKER]
  · intro i hilt
    simpa using hg i hilt

lemma parseGo_done_of_step (fuel : Nat) (st : RCState) (input : List Nat)
    (now : Nat) (st2 : RCState) (rest : List Nat) (evs : List Event)
    (hfuel : 0 < fuel)
    (h : parseStep st input now = .done st2 rest evs) :
    parseGo fuel st input now = (st2, rest, evs) := by
  match fuel, hfuel with
  | f + 1, _ => simp [parseGo, h]

/-- Claim C8: when the byte at the front of the stream is a known marker
whose full packet has not yet arrived, or is no known marker at all, the
dispatcher ends the pass consuming nothing: the step breaks with the
state, the stream and the event list untouched, and the whole
`parseSerialData` pass is the identity. -/
theorem dispatcher_stall_no_consume (st : RCState) (m : Nat) (rest : List Nat)
    (now : Nat)
    (h : (∃ s, knownPacketSize m = some s ∧ (m :: rest).length < s) ∨
      knownPacketSize m = none) :
    parseStep st (m :: rest) now = .done st (m :: rest) [] ∧
    parseSerialData st (m :: rest) now = (st, m :: rest, []) := by
  have hstep : parseStep st (m :: rest) now = .done st (m :: rest) [] := by
    by_cases h1 : m = STOP_MARKER
    · exfalso
      subst h1
      rcases h with ⟨s, hs, hlt⟩ | hn
      · simp [knownPacketSize] at hs
        subst hs
        simp only [List.length_cons] at hlt
        omega
      · simp [knownPacketSize] at hn
    · by_cases h2 : m = RESET_MARKER
      · subst h2
        rcases h with ⟨s, hs, hlt⟩ | hn
        · simp [knownPacketSize, STOP_MARKER, RESET_MARKER, MAX_RESET_SERVOS] at hs
          subst hs
          simp only [List.length_cons] at hlt
          have hg : ¬ (1 + MAX_RESET_SERVOS * 2 ≤ rest.length + 1) := by
            simp only [MAX_RESET_SERVOS]
            omega
          simp [parseStep, STOP_MARKER, RESET_MARKER, COMMAND_MARKER,
            END_MARKER, GET_TIME_MARKER, SYNC_MARKER, hg]
        · simp [knownPacketSize, STOP_MARKER, RESET_MARKER] at hn
      · by_cases h3 : m = COMMAND_MARKER
        · subst h3
          rcases h with ⟨s, hs, hlt⟩ | hn
          · simp [knownPacketSize, STOP_MARKER, RESET_MARKER, COMMAND_MARKER,
              COMMAND_PACKET_SIZE] at hs
            subst hs
            simp only [List.length_cons] at hlt
            rcases rest with _ | ⟨x1, _ | ⟨x2, _ | ⟨x3, _ | ⟨x4, _ | ⟨x5, _ | ⟨x6, r⟩⟩⟩⟩⟩⟩ <;>
              first
                | (exfalso; simp only [List.length_cons] at hlt; omega)
                | (simp [parseStep, STOP_MARKER, RESET_MARKER, COMMAND_MARKER,
                    MAX_RESET_SERVOS])
          · simp [knownPacketSize, STOP_MARKER, RESET_MARKER, COMMAND_MARKER] at hn
        · by_cases h4 : m = END_MARKER
          · subst h4
            rcases h with ⟨s, hs, hlt⟩ | hn
            · simp [knownPacketSize, STOP_MARKER, RESET_MARKER, COMMAND_MARKER,
                END_MARKER, END_PACKET_SIZE] at hs
              subst hs
              simp only [List.length_cons] at hlt
              rcases rest with _ | ⟨x1, _ | ⟨x2, _ | ⟨x3, _ | ⟨x4, r⟩⟩⟩⟩ <;>
                first
                  | (exfalso; simp only [List.length_cons] at hlt; omega)
                  | (simp [parseStep, STOP_MARKER, RESET_MARKER, COMMAND_MARKER,
                      END_MARKER, MAX_RESET_SERVOS])
            · simp [knownPacketSize, STOP_MARKER, RESET_MARKER, COMMAND_MARKER,
                END_MARKER] at hn
          · by_cases h5 : m = GET_TIME_MARKER
            · exfalso
              subst h5
              rcases h with ⟨s, hs, hlt⟩ | hn
              · simp [knownPacketSize, STOP_MARKER, RESET_MARKER, COMMAND_MARKER,
                  END_MARKER, GET_TIME_MARKER, GET_TIME_PACKET_SIZE] at hs
                subst hs
                simp only [List.length_cons] at hlt
                omega
              · simp [knownPacketSize, STOP_MARKER, RESET_MARKER, COMMAND_MARKER,
                  END_MARKER, GET_TIME_MARKER] at hn
            · by_cases h6 : m = SYNC_MARKER
              · subst h6
                rcases h with ⟨s, hs, hlt⟩ | hn
                · simp [knownPacketSize, STOP_MARKER, RESET_MARKER, COMMAND_MARKER,
                    END_MARKER, GET_TIME_MARKER, SYNC_MARKER, SYNC_PACKET_SIZE] at hs
                  subst hs
                  simp only [List.length_cons] at hlt
                  rcases rest with _ | ⟨x1, _ | ⟨x2, _ | ⟨x3, _ | ⟨x4, _ | ⟨x5, r⟩⟩⟩⟩⟩ <;>
                    first
                      | (exfalso; simp only [List.length_cons] at hlt; omega)
                      | (simp [parseStep, STOP_MARKER, RESET_MARKER, COMMAND_MARKER,
                          END_MARKER, GET_TIME_MARKER, SYNC_MARKER, MAX_RESET_SERVOS])
                · simp [knownPacketSize, STOP_MARKER, RESET_MARKER, COMMAND_MARKER,
                    END_MARKER, GET_TIME_MARKER, SYNC_MARKER] at hn
              · simp [parseStep, h1, h2, h3, h4, h5, h6]
  refine ⟨hstep, ?_⟩
  unfold parseSerialData
  exact parseGo_done_of_step _ st (m :: rest) now st (m :: rest) []
    (by simp) hstep

/-- Witness for `dispatcher_stall_no_consume`: a PICK marker with only two
of its seven bytes available is left in place. -/
theorem dispatcher_stall_no_consume_witness :
    parseSerialData ⟨[], true, 1000, false, false⟩ [COMMAND_MARKER, 3] 0 =
      (⟨[], true, 1000, false, false⟩, [COMMAND_MARKER, 3], []) :=
  (dispatcher_stall_no_consume ⟨[], true, 1000, false, false⟩
    COMMAND_MARKER [3] 0 (Or.inl ⟨COMMAND_PACKET_SIZE, by decide, by decide⟩)).2

/-- Witness for `reset_packet_immediate` on a concrete 37-byte packet. -/
theorem reset_packet_immediate_witness :
    parseStep ⟨[], false, 0, false, false⟩
      (RESET_MARKER :: (List.replicate 36 1 ++ [STOP_MARKER])) 0 =
      .next ⟨[], false, 0, false, false⟩ [STOP_MARKER]
        (resetLoop 0 MAX_RESET_SERVOS (List.replicate 36 1) ++
          [Event.msg "RESET_DONE"]) :=
  (reset_packet_immediate ⟨[], false, 0, false, false⟩
    (List.replicate 36 1) [STOP_MARKER] 0 (by decide)
    (by decide) (by decide)).1

/-- The unconsumed stream left by either constructor of a `StepResult`. -/
def StepResult.stream : StepResult → List Nat
  | .next _ r _ => r
  | .done _ r _ => r

lemma updateLoop_buffer_filter (baseline now : Nat) (debug : Bool) :
    ∀ (buf : List Command) (sync : Bool),
    (updateLoop baseline now debug buf sync).1 =
      buf.filter (fun c => now < (baseline + c.relativeDelay) % UINT32_MOD) := by
  intro buf
  induction buf with
  | nil => intro sync; simp [updateLoop]
  | cons c tl ih =>
    intro sync
    by_cases hdue : (baseline + c.relativeDelay) % UINT32_MOD ≤ now
    · by_cases h255 : c.targetIndex = 255 <;>
        simp [updateLoop, hdue, h255, ih, Nat.not_lt.mpr hdue]
    · simp [updateLoop, hdue, ih, Nat.lt_of_not_le hdue]

lemma update_inactive (st : RCState) (now : Nat)
    (h : st.syncReceived = false) : update st now = (st, []) := by
  simp [update, h]

/-- Claim C4: a buffered PICK command is executed by the scheduler exactly
at the first invocation whose `now` has reached `baseline + relativeDelay`
— strictly before that time the state is untouched and no driver call is
made, from that time on the driver is invoked once with exactly the stored
index and angle and the entry is removed — and in general the scan keeps
exactly the not-yet-due entries in their relative order (a due command is
found and removed at any buffer position). -/
theorem pick_scheduling_exact (st : RCState) (c : Command) (now : Nat)
    (hb : st.commandBuffer = [c]) (hsync : st.syncReceived = true)
    (hdbg : st.debugEnabled = false) (hpick : c.targetIndex ≠ 255)
    (hno : st.syncStartTime + c.relativeDelay < UINT32_MOD) :
    (now < st.syncStartTime + c.relativeDelay → update st now = (st, [])) ∧
    (st.syncStartTime + c.relativeDelay ≤ now →
      update st now =
        ({ st with commandBuffer := [] },
          [Event.servo c.targetIndex (c.angle : Int)])) ∧
    (∀ (buf : List Command) (sync : Bool),
      (updateLoop st.syncStartTime now st.debugEnabled buf sync).1 =
        buf.filter
          (fun k => now < (st.syncStartTime + k.relativeDelay) % UINT32_MOD)) := by
  have hmod : (st.syncStartTime + c.relativeDelay) % UINT32_MOD =
      st.syncStartTime + c.relativeDelay := Nat.mod_eq_of_lt hno
  refine ⟨?_, ?_, updateLoop_buffer_filter _ _ _⟩
  · intro hlt
    rcases st with ⟨buf, sync, start, dbg, hal⟩
    simp only [RCState.commandBuffer] at hb
    simp only [RCState.syncReceived] at hsync
    subst hb hsync
    simp_all [update, updateLoop, Nat.not_le.mpr hlt]
  · intro hge
    rcases st with ⟨buf, sync, start, dbg, hal⟩
    simp only [RCState.commandBuffer] at hb
    simp only [RCState.syncReceived] at hsync
    simp only [RCState.debugEnabled] at hdbg
    subst hb hsync hdbg
    simp_all [update, updateLoop, hpick, hge]

/-- Witness for `pick_scheduling_exact`: the §8 example of the spec — a
pick of target 3 at angle 90, baseline 1000, delay 500: nothing at 1499,
the driver call plus removal at 1500. -/
theorem pick_scheduling_exact_witness :
    update ⟨[⟨3, 90, 500⟩], true, 1000, false, false⟩ 1499 =
      (⟨[⟨3, 90, 500⟩], true, 1000, false, false⟩, []) ∧
    update ⟨[⟨3, 90, 500⟩], true, 1000, false, false⟩ 1500 =
      (⟨[], true, 1000, false, false⟩, [Event.servo 3 90]) := by
  have h1 := pick_scheduling_exact ⟨[⟨3, 90, 500⟩], true, 1000, false, false⟩
    ⟨3, 90, 500⟩ 1499 rfl rfl rfl (by decide) (by decide)
  have h2 := pick_scheduling_exact ⟨[⟨3, 90, 500⟩], true, 1000, false, false⟩
    ⟨3, 90, 500⟩ 1500 rfl rfl rfl (by decide) (by decide)
  exact ⟨h1.1 (by decide), by simpa using h2.2.1 (by decide)⟩

lemma parseStep_stream_subset (st : RCState) (input : List Nat) (now : Nat) :
    (parseStep st input now).stream ⊆ input := by
  unfold parseStep
  repeat' split
  all_goals simp only [StepResult.stream]
  all_goals
    first
      | exact fun x hx => hx
      | (intro x hx
         simp only [List.mem_cons]
         right
         exact List.drop_subset _ _ hx)
      | (intro x hx
         simp only [List.mem_cons] at hx ⊢
         tauto)

set_option maxHeartbeats 1000000 in
lemma parseStep_state_cases (st : RCState) (input : List Nat) (now : Nat) :
    (parseStep st input now).state = st ∨
    (parseStep st input now).state =
      { st with commandBuffer := [], syncReceived := false } ∨
    (st.commandBuffer.length < MAX_COMMANDS ∧ ∃ cmd,
      (parseStep st input now).state =
        { st with commandBuffer := st.commandBuffer ++ [cmd] }) ∨
    (SYNC_MARKER ∈ input ∧ ∃ t2, (parseStep st input now).state =
      { st with commandBuffer := [], syncReceived := true, syncStartTime := t2 }) ∨
    (parseStep st input now).state = { st with halted := true } := by
  unfold parseStep
  repeat' split
  all_goals simp only [StepResult.state]
  all_goals
    first
      | tauto
      | (right; right; left; exact ⟨by assumption, _, rfl⟩)
      | (right; right; right; left; exact ⟨by simp_all, _, rfl⟩)

lemma parseStep_sync_activation (st : RCState) (input : List Nat) (now : Nat)
    (hs : st.syncReceived = false)
    (hact : ((parseStep st input now).state).syncReceived = true) :
    SYNC_MARKER ∈ input := by
  rcases st with ⟨buf, sync, start, dbg, hal⟩
  simp only [RCState.syncReceived] at hs
  subst hs
  rcases parseStep_state_cases ⟨buf, false, start, dbg, hal⟩ input now with
    hc | hc | ⟨hlt, cmd, hc⟩ | ⟨hmem, t2, hc⟩ | hc <;>
    first
      | exact hmem
      | (rw [hc] at hact; simp_all)

lemma parseGo_sync_needs_marker : ∀ (fuel : Nat) (st : RCState)
    (input : List Nat) (now : Nat), st.syncReceived = false →
    ((parseGo fuel st input now).1).syncReceived = true →
    SYNC_MARKER ∈ input := by
  intro fuel
  induction fuel with
  | zero =>
    intro st input now hs habs
    simp only [parseGo] at habs
    rw [habs] at hs
    cases hs
  | succ f ih =>
    intro st input now hs habs
    cases hres : parseStep st input now with
    | done st2 rest2 evs =>
      simp only [parseGo, hres] at habs
      have hact : ((parseStep st input now).state).syncReceived = true := by
        rw [hres]; exact habs
      exact parseStep_sync_activation st input now hs hact
    | next st2 rest2 evs =>
      simp only [parseGo, hres] at habs
      by_cases h2 : st2.syncReceived = true
      · have hact : ((parseStep st input now).state).syncReceived = true := by
          rw [hres]; exact h2
        exact parseStep_sync_activation st input now hs hact
      · have h2f : st2.syncReceived = false := by
          cases hsync2 : st2.syncReceived
          · rfl
          · exact absurd hsync2 h2
        have hmem := ih st2 rest2 now h2f habs
        have hsub := parseStep_stream_subset st input now
        rw [hres] at hsub
        exact hsub hmem

/-- Claim C1: when the scheduler reaches a due end-of-sequence sentinel
(targetIndex 255) — the only entry a capacity-one buffer can hold — it
emits the DONE completion status, deactivates scheduling and empties the
buffer, with no driver call; once scheduling is inactive `update` executes
nothing at all, and no parse pass can re-activate scheduling unless the
input contains the SYNC marker byte, so the stop lasts until a new
synchronization event arrives. -/
theorem end_sentinel_immediate_stop (st : RCState) (c : Command) (now : Nat)
    (hb : st.commandBuffer = [c]) (h255 : c.targetIndex = 255)
    (hsync : st.syncReceived = true)
    (hdue : (st.syncStartTime + c.relativeDelay) % UINT32_MOD ≤ now) :
    update st now =
      ({ st with commandBuffer := [], syncReceived := false },
        [Event.msg "DONE"]) ∧
    (∀ (st2 : RCState) (now2 : Nat), st2.syncReceived = false →
      update st2 now2 = (st2, [])) ∧
    (∀ (st2 : RCState) (input : List Nat) (now2 : Nat),
      st2.syncReceived = false →
      ((parseSerialData st2 input now2).1).syncReceived = true →
      SYNC_MARKER ∈ input) := by
  refine ⟨?_, fun st2 now2 h => update_inactive st2 now2 h,
    fun st2 input now2 h1 h2 => parseGo_sync_needs_marker input.length st2 input now2 h1 h2⟩
  rcases st with ⟨buf, sync, start, dbg, hal⟩
  simp only [RCState.commandBuffer] at hb
  simp only [RCState.syncReceived] at hsync
  subst hb hsync
  simp_all [update, updateLoop, h255]

/-- Witness for `end_sentinel_immediate_stop` at a concrete due sentinel. -/
theorem end_sentinel_immediate_stop_witness :
    update ⟨[⟨255, 0, 10⟩], true, 0, false, false⟩ 10 =
      (⟨[], false, 0, false, false⟩, [Event.msg "DONE"]) := by
  have h := end_sentinel_immediate_stop ⟨[⟨255, 0, 10⟩], true, 0, false, false⟩
    ⟨255, 0, 10⟩ 10 rfl rfl rfl (by decide)
  simpa using h.1

/-- Claim C5: a framed SYNC packet whose type byte differs from the
expected constant drives the system into the absorbing halted state: the
pass stops at once with only the error line emitted (the rest of the
stream, valid packets included, is left unprocessed and `update` is never
reached), and from then on every `handle` invocation merely re-emits the
error line, consuming no input, changing no state and executing nothing. -/
theorem bad_sync_fatal_halt (st : RCState) (ty b0 b1 b2 b3 : Nat)
    (rest : List Nat) (now : Nat) (hty : ty ≠ SYNC_TYPE)
    (hhal : st.halted = false) :
    handle st (SYNC_MARKER :: ty :: b0 :: b1 :: b2 :: b3 :: rest) now =
      ({ st with halted := true }, b0 :: b1 :: b2 :: b3 :: rest,
        [Event.msg "RemoteControl ERROR: Unexpected sync packet type"]) ∧
    (∀ (st2 : RCState) (input : List Nat) (now2 : Nat), st2.halted = true →
      handle st2 input now2 =
        (st2, input,
          [Event.msg "RemoteControl ERROR: Unexpected sync packet type"])) := by
  constructor
  · have hstep : parseStep st (SYNC_MARKER :: ty :: b0 :: b1 :: b2 :: b3 :: rest) now =
        .done { st with halted := true } (b0 :: b1 :: b2 :: b3 :: rest)
          [Event.msg "RemoteControl ERROR: Unexpected sync packet type"] := by
      simp [parseStep, hty, STOP_MARKER, RESET_MARKER, COMMAND_MARKER,
        END_MARKER, GET_TIME_MARKER, SYNC_MARKER]
    have hparse : parseSerialData st
        (SYNC_MARKER :: ty :: b0 :: b1 :: b2 :: b3 :: rest) now =
        ({ st with halted := true }, b0 :: b1 :: b2 :: b3 :: rest,
          [Event.msg "RemoteControl ERROR: Unexpected sync packet type"]) := by
      unfold parseSerialData
      exact parseGo_done_of_step _ _ _ _ _ _ _ (by simp) hstep
    simp [handle, hhal, hparse]
  · intro st2 input now2 h2
    simp [handle, h2]

/-- Witness for `bad_sync_fatal_halt`: a SYNC with type byte 2 followed by
a valid STOP byte halts the system without touching the STOP byte, and the
halted state keeps re-emitting the error on later invocations. -/
theorem bad_sync_fatal_halt_witness :
    handle ⟨[], true, 1000, false, false⟩
      [SYNC_MARKER, 2, 9, 9, 9, 9, STOP_MARKER] 7 =
      (⟨[], true, 1000, false, true⟩, [9, 9, 9, 9, STOP_MARKER],
        [Event.msg "RemoteControl ERROR: Unexpected sync packet type"]) ∧
    handle ⟨[], true, 1000, false, true⟩ [STOP_MARKER] 8 =
      (⟨[], true, 1000, false, true⟩, [STOP_MARKER],
        [Event.msg "RemoteControl ERROR: Unexpected sync packet type"]) := by
  have h := bad_sync_fatal_halt ⟨[], true, 1000, false, false⟩ 2 9 9 9 9
    [STOP_MARKER] 7 (by decide) rfl
  exact ⟨by simpa using h.1, h.2 ⟨[], true, 1000, false, true⟩ [STOP_MARKER] 8 rfl⟩

lemma parseStep_preserves_cap (st : RCState) (input : List Nat) (now : Nat)
    (h : st.commandBuffer.length ≤ MAX_COMMANDS) :
    ((parseStep st input now).state).commandBuffer.length ≤ MAX_COMMANDS := by
  rcases parseStep_state_cases st input now with
    hc | hc | ⟨hlt, cmd, hc⟩ | ⟨hmem, t2, hc⟩ | hc
  · rw [hc]; exact h
  · rw [hc]; simp
  · rw [hc]; simp; omega
  · rw [hc]; simp
  · rw [hc]; exact h

lemma parseGo_preserves_cap : ∀ (fuel : Nat) (st : RCState)
    (input : List Nat) (now : Nat),
    st.commandBuffer.length ≤ MAX_COMMANDS →
    ((parseGo fuel st input now).1).commandBuffer.length ≤ MAX_COMMANDS := by
  intro fuel
  induction fuel with
  | zero => intro st input now h; simpa [parseGo] using h
  | succ f ih =>
    intro st input now h
    cases hres : parseStep st input now with
    | done st2 rest2 evs =>
      have := parseStep_preserves_cap st input now h
      rw [hres] at this
      simpa [parseGo, hres, StepResult.state] using this
    | next st2 rest2 evs =>
      have hst2 := parseStep_preserves_cap st input now h
      rw [hres] at hst2
      simp only [StepResult.state] at hst2
      simpa [parseGo, hres] using ih st2 rest2 now hst2

lemma updateLoop_len_le (baseline now : Nat) (debug : Bool) :
    ∀ (buf : List Command) (sync : Bool),
    (updateLoop baseline now debug buf sync).1.length ≤ buf.length := by
  intro buf
  induction buf with
  | nil => intro sync; simp [updateLoop]
  | cons c tl ih =>
    intro sync
    by_cases hdue : (baseline + c.relativeDelay) % UINT32_MOD ≤ now
    · by_cases h255 : c.targetIndex = 255 <;>
        (simp [updateLoop, hdue, h255]
         exact le_trans (ih _) (Nat.le_succ _))
    · simp [updateLoop, hdue]
      exact ih _

lemma update_preserves_cap (st : RCState) (now : Nat)
    (h : st.commandBuffer.length ≤ MAX_COMMANDS) :
    ((update st now).1).commandBuffer.length ≤ MAX_COMMANDS := by
  unfold update
  split
  · exact le_trans (updateLoop_len_le _ _ _ _ _) h
  · exact h

/-- Claim C10: the buffer capacity constant is exactly one, the
`commandBuffer.length ≤ MAX_COMMANDS` invariant is preserved by a full
`handle` cycle (parse pass plus scheduler pass), and a PICK or END packet
framed while an entry is already buffered leaves the buffer unchanged
(the packet is dropped). -/
theorem capacity_one_invariant :
    MAX_COMMANDS = 1 ∧
    (∀ (st : RCState) (input : List Nat) (now : Nat),
      st.commandBuffer.length ≤ MAX_COMMANDS →
      ((handle st input now).1).commandBuffer.length ≤ MAX_COMMANDS) ∧
    (∀ (st : RCState) (c : Command) (t a d0 d1 d2 d3 : Nat)
      (rest : List Nat) (now : Nat), st.commandBuffer = [c] →
      ((parseStep st (COMMAND_MARKER :: t :: a :: d0 :: d1 :: d2 :: d3 :: rest)
          now).state).commandBuffer = [c] ∧
      ((parseStep st (END_MARKER :: d0 :: d1 :: d2 :: d3 :: rest)
          now).state).commandBuffer = [c]) := by
  refine ⟨rfl, ?_, ?_⟩
  · intro st input now h
    have hp := parseGo_preserves_cap input.length st input now h
    simp only [handle, parseSerialData]
    split
    · exact h
    · split
      · exact hp
      · exact update_preserves_cap _ now hp
  · intro st c t a d0 d1 d2 d3 rest now hb
    have hfull : ¬ st.commandBuffer.length < MAX_COMMANDS := by
      rw [hb]; simp [MAX_COMMANDS]
    have hd := parseStep_full_buffer st t a d0 d1 d2 d3 rest now hfull
    constructor
    · rw [hd.1]; simpa [StepResult.state] using hb
    · rw [hd.2]; simpa [StepResult.state] using hb

/-- Witness for `capacity_one_invariant` at a concrete state and input. -/
theorem capacity_one_invariant_witness :
    ((handle ⟨[], false, 0, false, false⟩
      [COMMAND_MARKER, 3, 90, 244, 1, 0, 0] 0).1).commandBuffer.length ≤
      MAX_COMMANDS :=
  capacity_one_invariant.2.1 ⟨[], false, 0, false, false⟩
    [COMMAND_MARKER, 3, 90, 244, 1, 0, 0] 0 (by decide)

end AutonomousGuitar
